import Mathlib

/-!
# Shallow embedding of `src/lib/xmlrpc-message.js` (julien-f/xmlrpc-parser)

The source is a pure XML-RPC message encoder: a constructor
`XMLRPCMessage(methodname, params)` and a prototype method `xml()` that
renders an XML-RPC document, with helpers `dataTypeOf`, `getParamXML`,
`toValueXML`, `toBooleanXML`, `toDateXML`, `toArrayXML`, `toStructXML`
and `dateToISO8601`.

Modelling decisions, all dictated by the source:
* JavaScript dynamic values reachable by the encoder are modelled by the
  inductive type `Value` (number, boolean, string, `Date`, `Array`,
  plain object).  JavaScript numbers are IEEE-754 doubles; we model them
  as rationals `ℚ`, which is exact for every finite double.  `Math.round`
  rounds half towards `+∞`, i.e. `⌊q + 1/2⌋`.
* A JavaScript `Date` is its epoch-milliseconds value, modelled as `Int`.
  The `getUTC*` accessors are modelled by ECMA-262 field extraction over
  the proleptic Gregorian calendar (`civilFromDays`, the standard
  days-to-civil-date algorithm).
* String conversion `'' + n` of a number prints the shortest decimal
  string that round-trips.  For the seconds value built at precision 6
  (`Number(sec + '.' + threeDigitMillis)`) this is exactly the decimal
  with the trailing zeros of the three millisecond digits removed, and
  nothing when all three digits are zero (`jsSecsString`).
* `dateToISO8601` dereferences the result of a regex match; when the
  match fails (`null`) this throws a `TypeError`.  Fallible evaluation is
  modelled with `Option`: `none` is the thrown exception.
* `this.is_fault` is never set by the constructor, so it is `undefined`
  (falsy) on constructed messages; the field is modelled as a `Bool` of
  the message record, `false` after construction (callers may assign it).
-/

/-- The domain of values the encoder consumes: the JavaScript values
reachable by `dataTypeOf` / `getParamXML`.  `num` is a finite double
(modelled exactly as a rational), `date` an epoch-milliseconds instant,
`struct` a plain object as its ordered own-key/value list. -/
inductive Value : Type where
  | num (q : ℚ)
  | bool (b : Bool)
  | str (s : String)
  | date (t : Int)
  | arr (elems : List Value)
  | struct (members : List (String × Value))

/-- `Math.round` on a finite double: rounds to the nearest integer,
halves towards `+∞`, i.e. `⌊q + 1/2⌋`. -/
def jsMathRound (q : ℚ) : ℚ := (⌊q + 1 / 2⌋ : ℤ)

/-- `XMLRPCMessage.prototype.dataTypeOf`: `typeof` dispatch.  A number is
`'i4'` when `Math.round(o) === o`, else `'double'`; an object is
`'date'` when its constructor is `Date`, `'array'` when `Array`, and
`'struct'` otherwise; booleans and strings keep their `typeof` name. -/
def dataTypeOf : Value → String
  | .num q => if jsMathRound q = q then "i4" else "double"
  | .bool _ => "boolean"
  | .str _ => "string"
  | .date _ => "date"
  | .arr _ => "array"
  | .struct _ => "struct"

/-- `zeropad` from `dateToISO8601`: `(num < 10 ? '0' : '') + num`
(for the integer fields, where `num` is a nonnegative integer). -/
def zeropad (n : Nat) : String := (if n < 10 then "0" else "") ++ toString n

/-- The three millisecond digits built at precision 6:
`(ms < 100 ? '0' : '') + zeropad(ms)`. -/
def millisDigits (ms : Nat) : String := (if ms < 100 then "0" else "") ++ zeropad ms

/-- Drop trailing `'0'` characters (what `Number`/`toString` round-trip
does to the fractional digits of a terminating decimal). -/
def dropTrailingZeros (l : List Char) : List Char :=
  (l.reverse.dropWhile (fun c => c = '0')).reverse

/-- The fractional digits of the precision-6 seconds value after the
`Number(...)` round-trip: the three millisecond digits with trailing
zeros removed (possibly empty). -/
def fracDigits (ms : Nat) : List Char := dropTrailingZeros (millisDigits ms).toList

/-- `'' + secs` where `secs = Number(sec + '.' + millisDigits)`: the
shortest round-tripping decimal, i.e. the whole seconds, then a dot and
the nonzero-tailed millisecond digits, the dot omitted when the
fraction vanishes. -/
def jsSecsString (sec ms : Nat) : String :=
  if fracDigits ms = [] then toString sec
  else toString sec ++ "." ++ String.mk (fracDigits ms)

/-- `zeropad(secs)` for the (possibly fractional) precision-6 seconds
value `secs = sec + ms/1000`: `secs < 10` iff `sec < 10`. -/
def zeropadSecs (sec ms : Nat) : String :=
  (if sec < 10 then "0" else "") ++ jsSecsString sec ms

/-- Days-to-civil-date (proleptic Gregorian), as ECMA-262 specifies for
the `Date.prototype.getUTC*` accessors: from days since the epoch to
`(year, month, day)` with `month ∈ [1,12]`, `day ∈ [1,31]`. -/
def civilFromDays (z0 : Int) : Int × Nat × Nat :=
  let z : Int := z0 + 719468
  let era : Int := z.ediv 146097
  let doe : Nat := (z - era * 146097).toNat
  let yoe : Nat := (doe - doe / 1460 + doe / 36524 - doe / 146096) / 365
  let y : Int := era * 400 + yoe
  let doy : Nat := doe - (365 * yoe + yoe / 4 - yoe / 100)
  let mp : Nat := (5 * doy + 2) / 153
  let d : Nat := doy - (153 * mp + 2) / 5 + 1
  let m : Nat := if mp < 10 then mp + 3 else mp - 9
  (if m ≤ 2 then y + 1 else y, m, d)

/-- `date.getUTCFullYear()` of an epoch-milliseconds instant. -/
def getUTCFullYear (t : Int) : Int := (civilFromDays (t.ediv 86400000)).1

/-- `date.getUTCMonth() + 1` (the 1-based month, as the formatter uses it). -/
def getUTCMonthPlus1 (t : Int) : Nat := (civilFromDays (t.ediv 86400000)).2.1

/-- `date.getUTCDate()`. -/
def getUTCDate (t : Int) : Nat := (civilFromDays (t.ediv 86400000)).2.2

/-- Milliseconds elapsed in the UTC day of an instant. -/
def msOfDay (t : Int) : Nat := (t.emod 86400000).toNat

/-- `date.getUTCHours()`. -/
def getUTCHours (t : Int) : Nat := msOfDay t / 3600000

/-- `date.getUTCMinutes()`. -/
def getUTCMinutes (t : Int) : Nat := msOfDay t / 60000 % 60

/-- `date.getUTCSeconds()`. -/
def getUTCSeconds (t : Int) : Nat := msOfDay t / 1000 % 60

/-- `date.getUTCMilliseconds()`. -/
def getUTCMilliseconds (t : Int) : Nat := msOfDay t % 1000

/-- The field-extraction-and-assembly part of `dateToISO8601` (after the
`format`/`offset` defaulting and the offset shift): builds the string
from the UTC fields of `t` for format `1..6` and appends the zone
designator `offset` verbatim when `format > 3`. -/
def isoFields (t : Int) (format : Nat) (offset : String) : String :=
  let str := toString (getUTCFullYear t)
  let str := if format > 1 then str ++ "-" ++ zeropad (getUTCMonthPlus1 t) else str
  let str := if format > 2 then str ++ "-" ++ zeropad (getUTCDate t) else str
  let str := if format > 3 then
      str ++ "T" ++ zeropad (getUTCHours t) ++ ":" ++ zeropad (getUTCMinutes t)
    else str
  let str := if format > 5 then
      str ++ ":" ++ zeropadSecs (getUTCSeconds t) (getUTCMilliseconds t)
    else if format > 4 then str ++ ":" ++ zeropad (getUTCSeconds t) else str
  if format > 3 then str ++ offset else str

/-- One attempt of the regex `/([-+])([0-9]{2}):([0-9]{2})/` at the head
of the character list: on success, whether the sign is `'-'`, and the
numeric values of the two-digit hour and minute groups
(`Number(d[2])`, `Number(d[3])`). -/
def offsetMatchAt : List Char → Option (Bool × Nat × Nat)
  | sc :: a :: b :: colon :: c :: d :: _ =>
      if (sc = '+' ∨ sc = '-') ∧ a.isDigit ∧ b.isDigit ∧ colon = ':' ∧
          c.isDigit ∧ d.isDigit then
        some (sc = '-', (a.toNat - 48) * 10 + (b.toNat - 48),
          (c.toNat - 48) * 10 + (d.toNat - 48))
      else none
  | _ => none

/-- `offset.match(/([-+])([0-9]{2}):([0-9]{2})/)`: the leftmost match,
searching each start position left to right. -/
def offsetMatch : List Char → Option (Bool × Nat × Nat)
  | [] => none
  | sc :: rest =>
      match offsetMatchAt (sc :: rest) with
      | some r => some r
      | none => offsetMatch rest

/-- `XMLRPCMessage.prototype.dateToISO8601(dateIn, format, offset)`.
`format = 0` models the argument being absent (`!format` defaults it to
6); `offset = none` or `some ""` is falsy and defaults to `"Z"` with no
shift; a truthy offset is matched against the regex, and on success the
instant is shifted by the signed `hours*60+minutes` minutes before
field extraction, the supplied string being appended verbatim.  A
failed match makes `d` `null` and `d[2]` throw: result `none`. -/
def dateToISO8601 (dateIn : Int) (format : Nat) (offset : Option String) :
    Option String :=
  let fmt := if format = 0 then 6 else format
  match offset with
  | none => some (isoFields dateIn fmt "Z")
  | some off =>
      if off = "" then some (isoFields dateIn fmt "Z")
      else
        match offsetMatch off.toList with
        | none => none
        | some (neg, hh, mm) =>
            let offsetnum : Int := (if neg then -1 else 1) * (hh * 60 + mm)
            some (isoFields (dateIn + offsetnum * 60000) fmt off)

/-- `toBooleanXML`: `data === true ? 1 : 0` inside `<boolean>` tags. -/
def toBooleanXML (b : Bool) : String :=
  "<boolean>" ++ (if b = true then "1" else "0") ++ "</boolean>"

/-- `toDateXML`: `dateToISO8601(data)` (both optional arguments absent,
so the result is always a string) inside `<dateTime.iso8601>` tags. -/
def toDateXML (t : Int) : String :=
  "<dateTime.iso8601>" ++ (dateToISO8601 t 0 none).getD "" ++ "</dateTime.iso8601>"

/-- Decimal printing of a nonnegative rational that is not an integer:
integer part, dot, fractional digits of the shortest terminating
decimal expansion (what `'' + n` prints for such doubles; every finite
double with `|n| < 2^53` whose fraction terminates within 17 digits is
covered — numbers outside this model print num/den as a fallback the
encoder never meets on double inputs). -/
def ratFracString (a : ℚ) : String :=
  match (List.range 18).find? (fun k => (((a - ⌊a⌋) * 10 ^ k) : ℚ).den = 1) with
  | some k =>
      let n := (((a - ⌊a⌋) * 10 ^ k) : ℚ).num.toNat
      let digits := toString n
      let padded := String.mk (List.replicate (k - digits.length) '0') ++ digits
      toString (⌊a⌋.toNat) ++ "." ++ padded
  | none => toString a

/-- `'' + data` for a number value. -/
def numToString (q : ℚ) : String :=
  if q.den = 1 then toString q.num
  else (if q < 0 then "-" else "") ++ ratFracString |q|

/-- `toValueXML(type, data)`: `'<' + type + '>' + data + '</' + type + '>'`. -/
def toValueXML (type data : String) : String :=
  "<" ++ type ++ ">" ++ data ++ "</" ++ type ++ ">"

mutual

/-- `getParamXML(data)`: dispatch on `dataTypeOf(data)` — `'date'`,
`'array'`, `'struct'` and `'boolean'` go to their renderers, everything
else (`'i4'`, `'double'`, `'string'`) to `toValueXML(type, data)`. -/
def getParamXML : Value → String
  | .date t => toDateXML t
  | .arr l => toArrayXML l
  | .struct m => toStructXML m
  | .bool b => toBooleanXML b
  | .num q => toValueXML (dataTypeOf (.num q)) (numToString q)
  | .str s => toValueXML (dataTypeOf (.str s)) s
termination_by v => (sizeOf v, 0)

/-- `toArrayXML(data)`: `<array><data>` then one `<value>` line per
element, then `</data></array>`. -/
def toArrayXML (l : List Value) : String :=
  "<array><data>\n" ++ arrayItemsXML l ++ "</data></array>\n"
termination_by (sizeOf l, 1)

/-- The loop body of `toArrayXML`: `'<value>' + getParamXML(el) + '</value>\n'`
per element, in order. -/
def arrayItemsXML : List Value → String
  | [] => ""
  | v :: rest => "<value>" ++ getParamXML v ++ "</value>\n" ++ arrayItemsXML rest
termination_by l => (sizeOf l, 0)

/-- `toStructXML(data)`: `<struct>` then one `<member>` block per own
key, then `</struct>`. -/
def toStructXML (m : List (String × Value)) : String :=
  "<struct>\n" ++ structItemsXML m ++ "</struct>\n"
termination_by (sizeOf m, 1)

/-- The `for (const i in data)` loop body of `toStructXML`. -/
def structItemsXML : List (String × Value) → String
  | [] => ""
  | (k, v) :: rest =>
      "<member>\n<name>" ++ k ++ "</name>\n<value>" ++ getParamXML v ++
        "</value>\n</member>\n" ++ structItemsXML rest
termination_by m => (sizeOf m, 0)

end

/-- The state of an `XMLRPCMessage` object: its `method`, `params` and
`is_fault` properties (`is_fault` is `undefined`, i.e. `false`, unless a
caller assigns it). -/
structure XMLRPCMsg : Type where
  method : String
  params : List Value
  is_fault : Bool

/-- The constructor `XMLRPCMessage(methodname, params)`:
`this.method = methodname || 'system.listMethods'` (absent or empty
method names default to `'system.listMethods'`),
`this.params = params || []`. -/
def XMLRPCMessage (methodname : Option String) (params : Option (List Value)) :
    XMLRPCMsg :=
  { method :=
      match methodname with
      | none => "system.listMethods"
      | some s => if s = "" then "system.listMethods" else s
    params := params.getD []
    is_fault := false }

/-- The parameter loop of `xml()`: each value inside `<value>` tags,
additionally wrapped in `<param>` tags when the message is not a fault. -/
def paramsLoopXML (fault : Bool) : List Value → String
  | [] => ""
  | v :: rest =>
      (if ¬fault then "<param>\n" else "") ++
        "<value>" ++ getParamXML v ++ "</value>\n" ++
        (if ¬fault then "</param>\n" else "") ++ paramsLoopXML fault rest

/-- `XMLRPCMessage.prototype.xml()`: declaration line, then
`<methodCall>`/`<methodName>` when `this.method` is truthy else
`<methodResponse>`, then the `<params>` or `<fault>` envelope around
the parameter loop, closed in mirror order. -/
def xml (m : XMLRPCMsg) : String :=
  let x := "<?xml version=\"1.0\"?>\n"
  let x := x ++
    (if m.method ≠ "" then "<methodCall>\n<methodName>" ++ m.method ++ "</methodName>\n"
     else "<methodResponse>\n")
  let x := x ++ (if ¬m.is_fault then "<params>\n" else "<fault>\n")
  let x := x ++ paramsLoopXML m.is_fault m.params
  let x := x ++ (if ¬m.is_fault then "</params>\n" else "</fault>\n")
  x ++ (if m.method ≠ "" then "</methodCall>" else "</methodResponse>")

/-! ## Helper lemmas -/

theorem jsMathRound_eq_round (q : ℚ) : jsMathRound q = ((round q : ℤ) : ℚ) := by
  rw [jsMathRound, round_eq]

theorem round_cast_eq_self_iff (q : ℚ) :
    ((round q : ℤ) : ℚ) = q ↔ ∃ n : ℤ, q = (n : ℚ) := by
  constructor
  · intro h
    exact ⟨round q, h.symm⟩
  · rintro ⟨n, rfl⟩
    rw [round_intCast]

theorem arrayItemsXML_eq_foldr (l : List Value) :
    arrayItemsXML l =
      (l.map fun v => "<value>" ++ getParamXML v ++ "</value>\n").foldr (· ++ ·) "" := by
  induction l with
  | nil => simp [arrayItemsXML]
  | cons v rest ih => simp [arrayItemsXML, ih, String.append_assoc]

theorem paramsLoopXML_false_eq_foldr (l : List Value) :
    paramsLoopXML false l =
      (l.map fun v => "<param>\n<value>" ++ getParamXML v ++ "</value>\n</param>\n").foldr
        (· ++ ·) "" := by
  induction l with
  | nil => rfl
  | cons v rest ih => simp [paramsLoopXML, ih, String.append_assoc]

set_option maxRecDepth 10000 in
set_option maxHeartbeats 1000000 in
theorem fracDigits_facts : ∀ ms < 1000,
    (fracDigits ms = [] ↔ ms = 0) ∧
    ((fracDigits ms).length = 2 ↔ ms % 10 = 0 ∧ ms % 100 ≠ 0) := by decide

theorem getUTCMilliseconds_lt (t : Int) : getUTCMilliseconds t < 1000 :=
  Nat.mod_lt _ (by norm_num)

/-! ## The claims -/

/-- C1: `xml()` (the render entry point) is total over the `Value` domain:
classification assigns every value one of the seven known type tags (any
object that is not a `Date` or an `Array` falls through to `"struct"`),
the only fallible subroutine on the render path (`dateToISO8601` with
both optional arguments absent) always succeeds, and rendering always
produces a string starting with the XML declaration — no error or
validation-failure path exists. -/
theorem claim1_render_total (v : Value) (m : XMLRPCMsg) (t : Int) :
    dataTypeOf v ∈ ["i4", "double", "boolean", "string", "date", "array", "struct"] ∧
    (dateToISO8601 t 0 none).isSome = true ∧
    ∃ rest, xml m = "<?xml version=\"1.0\"?>\n" ++ rest := by
  refine ⟨?_, rfl, ?_⟩
  · cases v with
    | num q => by_cases h : jsMathRound q = q <;> simp [dataTypeOf, h]
    | bool b => simp [dataTypeOf]
    | str s => simp [dataTypeOf]
    | date u => simp [dataTypeOf]
    | arr l => simp [dataTypeOf]
    | struct mm => simp [dataTypeOf]
  · simp only [xml, String.append_assoc]
    exact ⟨_, rfl⟩

/-- C9: every boolean input classifies as `"boolean"` and renders through
`toBooleanXML`, which emits `<boolean>1</boolean>` for `true` and
`<boolean>0</boolean>` for `false` — always the `<boolean>` tag. -/
theorem claim9_boolean_rendering (b : Bool) :
    dataTypeOf (Value.bool b) = "boolean" ∧
    getParamXML (Value.bool b) = toBooleanXML b ∧
    toBooleanXML true = "<boolean>1</boolean>" ∧
    toBooleanXML false = "<boolean>0</boolean>" := by
  refine ⟨rfl, ?_, by simp [toBooleanXML], by simp [toBooleanXML]⟩
  simp [getParamXML]

/-- C8: string values and struct keys are emitted verbatim — a string
value `s` renders as `<string>` ++ s ++ `</string>` and a struct member
key `k` as `<name>` ++ k ++ `</name>` character for character, with no
XML escaping applied (demonstrated on text containing `<` and `&`). -/
theorem claim8_verbatim_text (s k : String) (v : Value) :
    getParamXML (Value.str s) = "<string>" ++ s ++ "</string>" ∧
    structItemsXML [(k, v)] =
      "<member>\n<name>" ++ k ++ "</name>\n<value>" ++ getParamXML v ++
        "</value>\n</member>\n" ∧
    getParamXML (Value.str "a<b&c") = "<string>a<b&c</string>" := by
  refine ⟨?_, ?_, ?_⟩
  · simp [getParamXML, toValueXML, dataTypeOf, String.append_assoc]
  · simp [structItemsXML, String.append_assoc]
  · simp [getParamXML, toValueXML, dataTypeOf, String.append_assoc]

/-- C7: an array renders as `<array><data>` followed by one
`<value>...</value>` line per element in input order (each element
recursively rendered by `getParamXML`), then `</data></array>`; the
empty array closes the `<data>` block with no child values, and
`[1,2,3]` yields three `<i4>` values in order. -/
theorem claim7_array_rendering (l : List Value) :
    toArrayXML l =
      "<array><data>\n" ++
        ((l.map fun v => "<value>" ++ getParamXML v ++ "</value>\n").foldr (· ++ ·) "" ++
          "</data></array>\n") ∧
    toArrayXML [] = "<array><data>\n</data></array>\n" ∧
    getParamXML (Value.arr [Value.num 1, Value.num 2, Value.num 3]) =
      "<array><data>\n<value><i4>1</i4></value>\n<value><i4>2</i4></value>\n<value><i4>3</i4></value>\n</data></array>\n" := by
  refine ⟨?_, ?_, ?_⟩
  · simp [toArrayXML, arrayItemsXML_eq_foldr, String.append_assoc]
  · simp [toArrayXML, arrayItemsXML]
  · have h1 : dataTypeOf (Value.num 1) = "i4" := by
      simp [dataTypeOf, jsMathRound]; norm_num
    have h2 : dataTypeOf (Value.num 2) = "i4" := by
      simp [dataTypeOf, jsMathRound]; norm_num
    have h3 : dataTypeOf (Value.num 3) = "i4" := by
      simp [dataTypeOf, jsMathRound]; norm_num
    have n1 : numToString 1 = "1" := by decide
    have n2 : numToString 2 = "2" := by decide
    have n3 : numToString 3 = "3" := by decide
    simp [getParamXML, toArrayXML, arrayItemsXML, toValueXML, h1, h2, h3, n1, n2, n3,
      String.append_assoc]

/-- C3: a numeric value classifies as `"i4"` exactly when it equals its
own rounding to the nearest integer (`Math.round(o) === o`), which for
a number is exactly being an integer, and otherwise classifies as
`"double"`; rendering then uses the `<i4>` or `<double>` tag
accordingly. -/
theorem claim3_numeric_classification (q : ℚ) :
    (dataTypeOf (Value.num q) = "i4" ↔ ((round q : ℤ) : ℚ) = q) ∧
    (dataTypeOf (Value.num q) = "double" ↔ ((round q : ℤ) : ℚ) ≠ q) ∧
    (((round q : ℤ) : ℚ) = q ↔ ∃ n : ℤ, q = (n : ℚ)) ∧
    getParamXML (Value.num q) =
      (if ((round q : ℤ) : ℚ) = q then "<i4>" ++ numToString q ++ "</i4>"
       else "<double>" ++ numToString q ++ "</double>") := by
  refine ⟨?_, ?_, round_cast_eq_self_iff q, ?_⟩
  · rcases eq_or_ne ((round q : ℤ) : ℚ) q with h | h <;>
      simp [dataTypeOf, jsMathRound_eq_round, h]
  · rcases eq_or_ne ((round q : ℤ) : ℚ) q with h | h <;>
      simp [dataTypeOf, jsMathRound_eq_round, h]
  · rcases eq_or_ne ((round q : ℤ) : ℚ) q with h | h <;>
      simp [getParamXML, toValueXML, dataTypeOf, jsMathRound_eq_round, h,
        String.append_assoc]

set_option maxRecDepth 10000 in
/-- C2 counterexample: a message constructed with no method name does
NOT render a response — the constructor defaults the method to
`system.listMethods`, so the document is a `<methodCall>` containing a
`<methodName>` element. -/
theorem claim2_counterexample :
    (XMLRPCMessage none none).method = "system.listMethods" ∧
    xml (XMLRPCMessage none none) =
      "<?xml version=\"1.0\"?>\n<methodCall>\n<methodName>system.listMethods</methodName>\n<params>\n</params>\n</methodCall>" := by
  exact ⟨rfl, by decide⟩

/-- C2 (amended): constructing with no method name defaults the method
to `system.listMethods`, so such a message renders as a call; it is the
messages whose `method` property is the empty string (reachable only by
overwriting the property after construction) that render as a response:
their document is wrapped in `<methodResponse>...</methodResponse>` and
the envelope contributes no `<methodCall>` or `<methodName>` element. -/
theorem claim2_amended (m : XMLRPCMsg) (p : Option (List Value)) :
    (XMLRPCMessage none p).method = "system.listMethods" ∧
    (m.method = "" →
      xml m =
        "<?xml version=\"1.0\"?>\n<methodResponse>\n" ++
          ((if ¬m.is_fault then "<params>\n" else "<fault>\n") ++
            (paramsLoopXML m.is_fault m.params ++
              ((if ¬m.is_fault then "</params>\n" else "</fault>\n") ++
                "</methodResponse>")))) := by
  refine ⟨rfl, fun h => ?_⟩
  simp [xml, h, String.append_assoc]

/-- C2 amended witness: the constructor default, and a concrete
response rendering for a message whose method was overwritten to the
empty string. -/
theorem claim2_amended_witness :
    (XMLRPCMessage none none).method = "system.listMethods" ∧
    xml { method := "", params := [], is_fault := false } =
      "<?xml version=\"1.0\"?>\n<methodResponse>\n<params>\n</params>\n</methodResponse>" := by
  refine ⟨(claim2_amended ⟨"", [], false⟩ none).1, ?_⟩
  have h := (claim2_amended ⟨"", [], false⟩ none).2 rfl
  simpa [paramsLoopXML] using h

/-- C6: when `is_fault` is true and a single value is supplied, the body
is exactly one `<value>...</value>` directly inside `<fault>...</fault>`
— no `<param>` wrapper and no `<params>` element; when `is_fault` is
false, the body is `<params>` wrapping each parameter's `<value>` in its
own `<param>`. -/
theorem claim6_fault_envelope (m : XMLRPCMsg) (v : Value) :
    (m.is_fault = true → m.params = [v] →
      xml m =
        "<?xml version=\"1.0\"?>\n" ++
          (if m.method ≠ "" then "<methodCall>\n<methodName>" ++ m.method ++ "</methodName>\n"
           else "<methodResponse>\n") ++
          ("<fault>\n" ++ ("<value>" ++ getParamXML v ++ "</value>\n") ++ "</fault>\n") ++
          (if m.method ≠ "" then "</methodCall>" else "</methodResponse>")) ∧
    (m.is_fault = false →
      xml m =
        "<?xml version=\"1.0\"?>\n" ++
          (if m.method ≠ "" then "<methodCall>\n<methodName>" ++ m.method ++ "</methodName>\n"
           else "<methodResponse>\n") ++
          ("<params>\n" ++
            ((m.params.map fun q => "<param>\n<value>" ++ getParamXML q ++ "</value>\n</param>\n").foldr
              (· ++ ·) "" ++ "</params>\n")) ++
          (if m.method ≠ "" then "</methodCall>" else "</methodResponse>")) := by
  constructor
  · intro hf hp
    simp [xml, hf, hp, paramsLoopXML, String.append_assoc]
  · intro hf
    simp [xml, hf, paramsLoopXML_false_eq_foldr, String.append_assoc]

/-- C6 witness: a concrete fault response with a single value and no
`<param>`/`<params>` around it, and a concrete non-fault call with each
parameter wrapped in its own `<param>` inside `<params>`. -/
theorem claim6_fault_envelope_witness :
    xml { method := "", params := [Value.str "ok"], is_fault := true } =
      "<?xml version=\"1.0\"?>\n<methodResponse>\n<fault>\n<value><string>ok</string></value>\n</fault>\n</methodResponse>" ∧
    xml { method := "m", params := [Value.str "a"], is_fault := false } =
      "<?xml version=\"1.0\"?>\n<methodCall>\n<methodName>m</methodName>\n<params>\n<param>\n<value><string>a</string></value>\n</param>\n</params>\n</methodCall>" := by
  constructor
  · have h := (claim6_fault_envelope ⟨"", [Value.str "ok"], true⟩ (Value.str "ok")).1 rfl rfl
    simpa [getParamXML, toValueXML, dataTypeOf, String.append_assoc] using h
  · have h := (claim6_fault_envelope ⟨"m", [Value.str "a"], false⟩ (Value.str "a")).2 rfl
    simpa [getParamXML, toValueXML, dataTypeOf, String.append_assoc] using h

set_option maxRecDepth 10000 in
/-- C4 counterexample: at precision level 6 the seconds field is NOT
always whole seconds plus a two-digit fraction.  At the epoch instant
(milliseconds 0) no fraction is emitted at all; at 500 ms the fraction
is one digit; at 456 ms it is three digits.  The `zeropadSecs` field
widths 2, 4 and 6 all differ from the claimed `ss.dd` width 5. -/
theorem claim4_counterexample :
    dateToISO8601 0 6 none = some "1970-01-01T00:00:00Z" ∧
    dateToISO8601 500 6 none = some "1970-01-01T00:00:00.5Z" ∧
    dateToISO8601 456 6 none = some "1970-01-01T00:00:00.456Z" ∧
    zeropadSecs 0 0 = "00" ∧ zeropadSecs 0 500 = "00.5" ∧
    zeropadSecs 0 456 = "00.456" := by
  refine ⟨by decide, by decide, by decide, by decide, by decide, by decide⟩

/-- C4 (amended): at precision level 6 the seconds field is the whole
seconds (zero-padded under 10) followed by the three millisecond digits
with their trailing zeros removed as fractional suffix — the suffix is
omitted entirely at 0 ms, and it has exactly two digits precisely when
the millisecond value is a multiple of 10 but not of 100. -/
theorem claim4_amended (t : Int) :
    (∃ pre, isoFields t 6 "Z" =
        pre ++ (":" ++ (zeropadSecs (getUTCSeconds t) (getUTCMilliseconds t) ++ "Z"))) ∧
    zeropadSecs (getUTCSeconds t) (getUTCMilliseconds t) =
      (if getUTCSeconds t < 10 then "0" else "") ++
        (if getUTCMilliseconds t = 0 then toString (getUTCSeconds t)
         else toString (getUTCSeconds t) ++ "." ++
           String.mk (fracDigits (getUTCMilliseconds t))) ∧
    ((fracDigits (getUTCMilliseconds t)).length = 2 ↔
      getUTCMilliseconds t % 10 = 0 ∧ getUTCMilliseconds t % 100 ≠ 0) := by
  have hff := fracDigits_facts _ (getUTCMilliseconds_lt t)
  refine ⟨⟨toString (getUTCFullYear t) ++ "-" ++ zeropad (getUTCMonthPlus1 t) ++ "-" ++
      zeropad (getUTCDate t) ++ "T" ++ zeropad (getUTCHours t) ++ ":" ++
      zeropad (getUTCMinutes t), ?_⟩, ?_, hff.2⟩
  · simp [isoFields, String.append_assoc]
  · by_cases hms : getUTCMilliseconds t = 0
    · simp [zeropadSecs, jsSecsString, hms, show fracDigits 0 = [] from by decide]
    · have hne : fracDigits (getUTCMilliseconds t) ≠ [] := fun hc => hms (hff.1.mp hc)
      simp [zeropadSecs, jsSecsString, hne, hms]

/-- C5: for any offset string of the exact form sign, two digits, colon,
two digits, `dateToISO8601` shifts the instant by the signed
`hours*60+minutes` minutes (i.e. by that many times 60000 ms) before
extracting the date/time fields, and — at any level above 3 — the
field assembly appends the supplied offset string verbatim as the zone
designator. -/
theorem claim5_offset_shift (t : Int) (format : Nat) (sc d1 d2 d3 d4 : Char)
    (hsc : sc = '+' ∨ sc = '-') (h1 : d1.isDigit = true) (h2 : d2.isDigit = true)
    (h3 : d3.isDigit = true) (h4 : d4.isDigit = true) :
    dateToISO8601 t format (some (String.mk [sc, d1, d2, ':', d3, d4])) =
      some (isoFields
        (t + (if sc = '-' then (-1 : Int) else 1) *
          (((((d1.toNat - 48) * 10 + (d2.toNat - 48)) * 60 +
            ((d3.toNat - 48) * 10 + (d4.toNat - 48)) : Nat)) : Int) * 60000)
        (if format = 0 then 6 else format)
        (String.mk [sc, d1, d2, ':', d3, d4])) ∧
    (∀ (u : Int) (fmt : Nat) (off : String), 3 < fmt →
      ∃ pre, isoFields u fmt off = pre ++ off) := by
  constructor
  · have hne : String.mk [sc, d1, d2, ':', d3, d4] ≠ "" := by
      intro hc
      have hd := congrArg String.data hc
      simp at hd
    have hmat : offsetMatchAt [sc, d1, d2, ':', d3, d4] =
        some (decide (sc = '-'), (d1.toNat - 48) * 10 + (d2.toNat - 48),
          (d3.toNat - 48) * 10 + (d4.toNat - 48)) := by
      simp only [offsetMatchAt]
      rw [if_pos]
      exact ⟨hsc, h1, h2, by trivial, h3, h4⟩
    have hsearch : offsetMatch [sc, d1, d2, ':', d3, d4] =
        some (decide (sc = '-'), (d1.toNat - 48) * 10 + (d2.toNat - 48),
          (d3.toNat - 48) * 10 + (d4.toNat - 48)) := by
      simp only [offsetMatch, hmat]
    have hsign : (if decide (sc = '-') = true then (-1 : Int) else 1) =
        (if sc = '-' then (-1 : Int) else 1) := by
      by_cases h : sc = '-' <;> simp [h]
    simp only [dateToISO8601, String.toList, if_neg hne, hsearch]
    rw [hsign]
    push_cast
    ring_nf
  · intro u fmt off hf
    simp only [isoFields, hf, if_true, gt_iff_lt]
    exact ⟨_, rfl⟩

/-- C5 witness: shifting the epoch by `+01:30` is a 90-minute forward
shift before field extraction, and level-6 output ends in the verbatim
offset. -/
theorem claim5_offset_shift_witness :
    dateToISO8601 0 6 (some "+01:30") = some (isoFields 5400000 6 "+01:30") ∧
    isoFields 5400000 6 "+01:30" = "1970-01-01T01:30:00+01:30" ∧
    (∃ pre, isoFields 0 6 "Z" = pre ++ "Z") := by
  have h := claim5_offset_shift 0 6 '+' '0' '1' '3' '0' (Or.inl rfl)
    (by decide) (by decide) (by decide) (by decide)
  refine ⟨?_, by decide, h.2 0 6 "Z" (by decide)⟩
  exact (by decide : dateToISO8601 0 6 (some "+01:30") =
      dateToISO8601 0 6 (some (String.mk ['+', '0', '1', ':', '3', '0']))).trans
    (h.1.trans (by decide))

/-- C10: the formatter only returns a string when the offset argument is
absent or falsy, or the regex `/([-+])([0-9]{2}):([0-9]{2})/` matches
somewhere in it; for any truthy offset string on which the match fails
(such as the explicit string `"Z"`), the match result is `null`, its
dereference throws, and no string is returned. -/
theorem claim10_invalid_offset (t : Int) (format : Nat) (off : String)
    (h1 : off ≠ "") (h2 : offsetMatch off.toList = none) :
    dateToISO8601 t format (some off) = none := by
  have h3 : offsetMatch off.data = none := h2
  simp [dateToISO8601, h1, h3]

/-- C10 witness: the explicit offset string `"Z"` is truthy, the regex
does not match it, and the formatter raises (returns no string). -/
theorem claim10_invalid_offset_witness :
    ("Z" : String) ≠ "" ∧ offsetMatch ("Z" : String).toList = none ∧
    dateToISO8601 0 6 (some "Z") = none :=
  ⟨by decide, by decide, claim10_invalid_offset 0 6 "Z" (by decide) (by decide)⟩
